import Mathlib

/-!
# Verification of the `DL85Booster` column-generation boosting loop

Shallow embedding of the two `DL85Booster.fit` implementations of this
repository:

* `src/pydl85/supervised/classifiers/boosting.py` (cvxpy-based), embedded in
  namespace `Pydl85`;
* `src/python_library/dl85/supervised/classifiers/boosting.py` (gurobi-based),
  embedded in namespace `Glib`.

External collaborators (the weak-learner oracle `DL85Classifier.fit/predict`
and the LP/QP solvers) are modelled as script inputs: each loop iteration
consumes one script event carrying the oracle's outcome (its correctness
vector, or `none` for a raised recognized failure) and the solver's returned
optimum.  Machine floats are modelled as exact rationals; wall-clock readings
(`time.perf_counter() - start_time`) are script inputs.  Diagnostic-only
outputs (`margins_`, `duration_`, log printing, the `accuracy_` quotient —
kept here as the numerator count `nCorrect` over `len(y)`) do not feed back
into control flow and are correspondingly simplified.
-/

namespace DL85

/-- Dot product of two equal-length rational vectors (numpy `a @ b`,
`sum(a[i]*b[i])`). -/
def dotQ (a b : List ℚ) : ℚ := (List.zipWith (· * ·) a b).sum

/-- `[i for i, val in enumerate(ws) if val == 0]` — the indices of the
ensemble members whose finalized weight is exactly zero
(`boosting.py` line 397 / line 273). -/
def zeroInd (ws : List ℚ) : List ℕ := (ws.enum.filter (fun p => p.2 = 0)).map Prod.fst

/-- `np.delete(xs, zero_ind)` on a list, equivalently
`[x for i, x in enumerate(xs) if i not in idx]`
(`boosting.py` lines 400-402 / lines 275-276). -/
def removeIdx (xs : List α) (idx : List ℕ) : List α :=
  (xs.enum.filter (fun p => p.1 ∉ idx)).map Prod.snd

/-- Recursive characterization of `zeroInd`, tracking the running index. -/
def zeroIndFrom : ℕ → List ℚ → List ℕ
  | _, [] => []
  | n, w :: ws => (if w = 0 then [n] else []) ++ zeroIndFrom (n + 1) ws

/-- Recursive characterization of `removeIdx`, tracking the running index. -/
def removeIdxFrom (idx : List ℕ) : ℕ → List α → List α
  | _, [] => []
  | n, x :: xs => (if n ∈ idx then [] else [x]) ++ removeIdxFrom idx (n + 1) xs

/-- Keep the entries of `xs` whose companion weight in `ws` is nonzero. -/
def keepNonzero (xs : List α) (ws : List ℚ) : List α :=
  ((xs.zip ws).filter (fun p => p.2 ≠ 0)).map Prod.fst

/-! ## The cvxpy-based implementation (`src/pydl85/supervised/classifiers/boosting.py`)

`DL85Booster.fit` (lines 256-428).  The loop state mirrors the long-lived
attributes and locals of `fit`; one `Event` is consumed per `while` iteration
and carries the external outcomes of that iteration: the wall clock, the
fitted weak learner (as an identifier), the outcome of `clf.predict(X)`
translated into the ±1 correctness vector (or `none` when `predict` raised
one of `NotFittedError`, `SearchFailedError`, `TreeNotFoundError`), and the
optimum returned by the active `compute_dual_*` solve. -/

namespace Pydl85

/-- The tuple returned by `compute_dual_ratsch/demiriz/aglin/mdboost`
(lines 367-374): acceptance threshold `r`, fresh sample weights `u`, and the
estimator weights `w` (the dual values of the first `T` constraints). -/
structure DualSol where
  r : ℚ
  u : List ℚ
  w : List ℚ
  deriving DecidableEq, Repr

/-- External outcomes of one iteration of the `while` loop (lines 308-392). -/
structure Event where
  elapsed : ℚ
  clf : ℕ
  oracle : Option (List ℚ)
  dual : DualSol
  deriving DecidableEq, Repr

/-- The constructor arguments of `DL85Booster` that this loop reads.
`time_limit` is stored (line 234) and forwarded to the weak-learner search via
`clf_params`, but is also listed here because the spec claims the loop
consults it. -/
structure Params where
  max_iterations : ℤ
  time_limit : ℤ
  opti_gap : ℚ
  deriving DecidableEq, Repr

/-- Loop state: attributes `estimators_`, `estimator_weights_`, `optimal_`,
`n_iterations_` plus the locals `predictions` (matrix of ±1 columns, `None`
until the first column), `sample_weights` and `r` of `fit`. -/
structure LoopState where
  estimators_ : List ℕ
  estimator_weights_ : List ℚ
  predictions : Option (List (List ℚ))
  sample_weights : List ℚ
  r : Option ℚ
  n_iterations_ : ℕ
  optimal_ : Bool
  deriving DecidableEq, Repr

/-- Line 308: `while (max_iterations > 0 and n_iterations_ <= max_iterations)
or max_iterations <= 0` — the only budget consulted by this loop. -/
def loopCondB (max_iterations : ℤ) (n_iterations_ : ℕ) : Bool :=
  (decide (0 < max_iterations) && decide ((n_iterations_ : ℤ) ≤ max_iterations))
    || decide (max_iterations ≤ 0)

/-- Lines 348-354: on iterations with `n_iterations_ > 1`, discard the new
learner and stop when `pred @ sample_weights < r + opti_gap`.  (`r` is `None`
until the first dual solve, and the test is unreachable in that case because
`n_iterations_ > 1` implies a solve has happened.) -/
def convStopB (r : Option ℚ) (n_iterations_ : ℕ) (score opti_gap : ℚ) : Bool :=
  decide (1 < n_iterations_) &&
    (match r with
     | some rv => decide (score < rv + opti_gap)
     | none => false)

/-- Lines 359-392: append the correctness column and the learner, then store
the fresh dual optimum (`r`, `sample_weights`, `estimator_weights_`) and
increment the iteration counter. -/
def accept (s : LoopState) (e : Event) (pred : List ℚ) : LoopState :=
  { estimators_ := s.estimators_ ++ [e.clf]
    estimator_weights_ := e.dual.w
    predictions := some ((match s.predictions with | none => [] | some cs => cs) ++ [pred])
    sample_weights := e.dual.u
    r := some e.dual.r
    n_iterations_ := s.n_iterations_ + 1
    optimal_ := s.optimal_ }

/-- The `while` loop of `fit` (lines 308-392).  Returns `none` when the
script is exhausted while the loop would still run (a model artifact: the
concrete scripts used below always suffice). -/
def loop (p : Params) : List Event → LoopState → Option LoopState
  | [], s => if loopCondB p.max_iterations s.n_iterations_ then none else some s
  | e :: rest, s =>
    if loopCondB p.max_iterations s.n_iterations_ then
      match e.oracle with
      | none => some s
      | some pred =>
        if convStopB s.r s.n_iterations_ (dotQ pred s.sample_weights) p.opti_gap then
          some { s with optimal_ := true }
        else loop p rest (accept s e pred)
    else some s

/-- Lines 260-265 plus the attributes NOT reset by `fit`: `estimators_`,
`estimator_weights_` and `optimal_` keep whatever a previous run (or
`__init__`, where they start `[], [], True`) left in them. -/
def initState (es0 : List ℕ) (ws0 : List ℚ) (opt0 : Bool) (n : ℕ) : LoopState :=
  { estimators_ := es0
    estimator_weights_ := ws0
    predictions := none
    sample_weights := List.replicate n (1 / (n : ℚ))
    r := none
    n_iterations_ := 1
    optimal_ := opt0 }

/-- Row `i` of `np.dot(predictions, estimator_weights_)` (line 407). -/
def rowMargin (cols : List (List ℚ)) (ws : List ℚ) (i : ℕ) : ℚ :=
  dotQ (cols.map (fun c => c.getD i 0)) ws

/-- Numerator of `accuracy_` (lines 407-409): the number of training rows
whose weighted vote is `≥ 0`; `accuracy_` itself is this count over `len(y)`. -/
def nCorrectOf (cols : List (List ℚ)) (ws : List ℚ) (m : ℕ) : ℕ :=
  ((List.range m).filter (fun i => 0 ≤ rowMargin cols ws i)).length

/-- Attributes observable after a normal return of `fit`. -/
structure FitResult where
  estimators_ : List ℕ
  estimator_weights_ : List ℚ
  predictions : List (List ℚ)
  nCorrect : ℕ
  n_estimators_ : ℕ
  n_iterations_ : ℕ
  optimal_ : Bool
  deriving DecidableEq, Repr

/-- How a call to `fit` ends. -/
inductive Outcome where
  /-- `ValueError` at line 258 (`y` is `None`). -/
  | valueError
  /-- `np.delete(predictions, ..., axis=1)` at line 402 with
  `predictions = None` (no iteration appended a column): numpy raises. -/
  | axisError
  /-- `NotFittedError("No tree selected")` at line 424. -/
  | notFittedError
  /-- Model artifact: the script ended while the loop would still run. -/
  | outOfScript
  | ok (f : FitResult)
  deriving DecidableEq, Repr

/-- `DL85Booster.fit` (lines 256-428) of the cvxpy implementation.  Its only
input validation is `y is None` (lines 257-258); the class count of `y` is
never inspected.  After the loop, lines 396-424: prune the zero-weight
members and their prediction columns, recompute the training accuracy, then
fail iff no estimator survived. -/
def fit (p : Params) (es0 : List ℕ) (ws0 : List ℚ) (opt0 : Bool) (n : ℕ)
    (y : Option (List ℤ)) (evs : List Event) : Outcome :=
  match y with
  | none => .valueError
  | some ys =>
    match loop p evs (initState es0 ws0 opt0 n) with
    | none => .outOfScript
    | some s =>
      match s.predictions with
      | none => .axisError
      | some cols =>
        let zi := zeroInd s.estimator_weights_
        let ws' := removeIdx s.estimator_weights_ zi
        let es' := removeIdx s.estimators_ zi
        let cols' := removeIdx cols zi
        if es'.length = 0 then .notFittedError
        else .ok
          { estimators_ := es'
            estimator_weights_ := ws'
            predictions := cols'
            nCorrect := nCorrectOf cols' ws' ys.length
            n_estimators_ := es'.length
            n_iterations_ := s.n_iterations_ - 1
            optimal_ := s.optimal_ }

/-- Number of columns of the (possibly still absent) prediction matrix of a
loop state. -/
def colCount (s : LoopState) : ℕ :=
  match s.predictions with
  | none => 0
  | some cs => cs.length

/-- Well-formedness of a script suffix starting when `c` prediction columns
exist: every `compute_dual_*` reply carries exactly one dual value per
column of the matrix it is handed (the code takes
`[x.dual_value for x in problem.constraints[:predictions.shape[1]]]`,
lines 446/464/479), and an accepted event adds one column. -/
def WFevs : ℕ → List Event → Prop
  | _, [] => True
  | c, e :: rest => e.dual.w.length = c + 1 ∧ WFevs (c + 1) rest

end Pydl85

/-! ## The gurobi-based implementation
(`src/python_library/dl85/supervised/classifiers/boosting.py`)

`DL85Booster.fit` (lines 146-296), embedded on its default validation path
(`X_add = y_add = None`, `valid = True`, hence `valid_exist` is false and no
validation bookkeeping or file write happens).  The solver calls
(`calculate_estimator_weights[_]` for the primal weights,
`calculate_sample_weights[_]` for the dual sample weights and threshold) and
the weak-learner calls are script inputs, one `Event` per `while` iteration. -/

namespace Glib

/-- `sum(w > 0 for w in estimator_weights_)` (line 201). -/
def countPos (ws : List ℚ) : ℕ := (ws.filter (fun w => 0 < w)).length

/-- The constructor arguments read by this loop.  `svm1` is
`model == BOOST_SVM1` (the only other supported value is `BOOST_SVM2`). -/
structure Params where
  max_estimators : ℤ
  max_iterations : ℤ
  time_limit : ℚ
  svm1 : Bool
  regulator : ℚ
  deriving DecidableEq, Repr

/-- External outcomes of one iteration of the `while True` loop
(lines 200-264): the wall clock read by the budget check, the dual solve's
fresh sample weights and threshold, the fitted weak learner, the outcome of
its `predict` (guarded at lines 233-239), and the primal solve's estimator
weights. -/
structure Event where
  elapsed : ℚ
  dual_u : List ℚ
  gamma : ℚ
  clf : ℕ
  oracle : Option (List ℚ)
  primal_w : List ℚ
  deriving DecidableEq, Repr

/-- Line 201: stop when
`sum(w > 0 for w in estimator_weights_) >= max_estimators > 0` or
`n_iterations_ >= max_iterations > 0` or
`elapsed >= time_limit > 0` — a chained comparison, so a value `≤ 0`
disables that budget. -/
def stopCondB (p : Params) (ws : List ℚ) (n_iterations_ : ℕ) (elapsed : ℚ) : Bool :=
  (decide (p.max_estimators ≤ (countPos ws : ℤ)) && decide (0 < p.max_estimators))
    || (decide (p.max_iterations ≤ (n_iterations_ : ℤ)) && decide (0 < p.max_iterations))
    || (decide (p.time_limit ≤ elapsed) && decide (0 < p.time_limit))

/-- Line 246: discard the learner and leave the loop when
`(model == BOOST_SVM1 and accuracy <= gamma) or
(model == BOOST_SVM2 and accuracy <= 1)`. -/
def convStopB (svm1 : Bool) (accuracy gamma : ℚ) : Bool :=
  (svm1 && decide (accuracy ≤ gamma)) || (!svm1 && decide (accuracy ≤ 1))

/-- Loop state: the attributes `estimators_`, `estimator_weights_`,
`n_iterations_`, `optimal_` plus the local `preds` (list of ±1 correctness
rows, one per accepted learner). -/
structure LoopState where
  estimators_ : List ℕ
  estimator_weights_ : List ℚ
  preds : List (List ℚ)
  n_iterations_ : ℕ
  optimal_ : Bool
  deriving DecidableEq, Repr

/-- The `while True` loop (lines 200-264).  Budget check first (sets
`optimal_ = False` and breaks); then the dual solve and the guarded oracle
step (a recognized failure sets `optimal_ = False` and breaks); then the
acceptance test (line 246; a discard breaks with `optimal_` untouched);
otherwise append the learner and its correctness row, store the primal
weights and continue. -/
def loop (p : Params) : List Event → LoopState → Option LoopState
  | [], _ => none
  | e :: rest, s =>
    if stopCondB p s.estimator_weights_ s.n_iterations_ e.elapsed then
      some { s with optimal_ := false }
    else
      match e.oracle with
      | none => some { s with optimal_ := false }
      | some pred =>
        if convStopB p.svm1 (dotQ e.dual_u pred) e.gamma then some s
        else loop p rest
          { estimators_ := s.estimators_ ++ [e.clf]
            estimator_weights_ := e.primal_w
            preds := s.preds ++ [pred]
            n_iterations_ := s.n_iterations_ + 1
            optimal_ := s.optimal_ }

/-- Lines 160-161: a non-positive regulator is overwritten with
`1 / (random.uniform(0, 1) * X.shape[0])`, `u` being the fresh uniform
draw in `(0, 1)`. -/
def updateRegulator (regulator : ℚ) (n : ℕ) (u : ℚ) : ℚ :=
  if regulator ≤ 0 then 1 / (u * n) else regulator

/-- Upper bound put on every sample-weight variable of the dual programs
(lines 423 and 462): `ub = regulator if regulator > 0 else 1`. -/
def sampleWeightUb (regulator : ℚ) : ℚ := if 0 < regulator then regulator else 1

/-- `len(set(y))`. -/
def nDistinct (ys : List ℤ) : ℕ := ys.dedup.length

/-- External outcomes of the code before the loop:  the uniform draw of
line 161, the first weak learner (lines 166-176) whose fit is attempted
unconditionally, the outcome of its `predict` at line 190 — which is NOT
inside any try/except — and the first primal solve (lines 193-196). -/
structure FitInput where
  urand : ℚ
  firstClf : ℕ
  firstOracle : Option (List ℚ)
  first_w : List ℚ
  events : List Event
  deriving DecidableEq, Repr

/-- Weighted vote margin of training row `tid` (line 279). -/
def rowMarginRows (preds : List (List ℚ)) (ws : List ℚ) (tid : ℕ) : ℚ :=
  dotQ ws (preds.map (fun row => row.getD tid 0))

/-- Numerator of `accuracy_` (lines 279-281): rows whose weighted vote sum is
`≥ 0`; with no surviving estimator `zip(*[])` is empty and the count is 0. -/
def nCorrectRows (preds : List (List ℚ)) (ws : List ℚ) (m : ℕ) : ℕ :=
  if preds.isEmpty then 0
  else ((List.range m).filter (fun tid => 0 ≤ rowMarginRows preds ws tid)).length

/-- Attributes observable after a normal return of `fit`. -/
structure FitResult where
  estimators_ : List ℕ
  estimator_weights_ : List ℚ
  preds : List (List ℚ)
  nCorrect : ℕ
  n_estimators_ : ℕ
  n_iterations_ : ℕ
  optimal_ : Bool
  regulator : ℚ
  deriving DecidableEq, Repr

/-- How a call to the gurobi `fit` ends.  There is no empty-ensemble check:
a run whose every weight was pruned still returns `ok`. -/
inductive Outcome where
  /-- `ValueError` at line 148 (`y is None or len(set(y)) < 2`). -/
  | valueError
  /-- The recognized failure raised by the UNGUARDED first `clf.predict(X)`
  at line 190 propagates out of `fit`. -/
  | oracleErrorPropagated
  /-- Model artifact: the script ended while the loop would still run. -/
  | outOfScript
  | ok (f : FitResult)
  deriving DecidableEq, Repr

/-- `DL85Booster.fit` (lines 146-296) of the gurobi implementation.
Validation first (line 147: `y is None or len(set(y)) < 2`), then the
regulator overwrite (lines 160-161), the unconditional first fit and its
unguarded predict (lines 166-190), the first primal solve (lines 193-196),
`n_iterations_ += 1` (line 199), the loop, and the finalization
(lines 272-296): filter out the exactly-zero weights and the matching
estimators and prediction rows, recompute `accuracy_`, set `n_estimators_`
and return — with no emptiness check.
`es0`, `ws0`, `opt0`, `ni0` are the values of `estimators_`,
`estimator_weights_`, `optimal_`, `n_iterations_` on entry (from `__init__`:
`[], [], True, 0`), which `fit` never resets. -/
def fit (p : Params) (es0 : List ℕ) (_ws0 : List ℚ) (opt0 : Bool) (ni0 : ℕ) (n : ℕ)
    (y : Option (List ℤ)) (inp : FitInput) : Outcome :=
  match y with
  | none => .valueError
  | some ys =>
    if nDistinct ys < 2 then .valueError
    else
      let reg := updateRegulator p.regulator n inp.urand
      match inp.firstOracle with
      | none => .oracleErrorPropagated
      | some pred0 =>
        let s0 : LoopState :=
          { estimators_ := es0 ++ [inp.firstClf]
            estimator_weights_ := inp.first_w
            preds := [pred0]
            n_iterations_ := ni0 + 1
            optimal_ := opt0 }
        match loop { p with regulator := reg } inp.events s0 with
        | none => .outOfScript
        | some s =>
          let zi := zeroInd s.estimator_weights_
          let ws' := s.estimator_weights_.filter (fun w => w ≠ 0)
          let es' := removeIdx s.estimators_ zi
          let preds' := removeIdx s.preds zi
          .ok { estimators_ := es'
                estimator_weights_ := ws'
                preds := preds'
                nCorrect := nCorrectRows preds' ws' ys.length
                n_estimators_ := es'.length
                n_iterations_ := s.n_iterations_
                optimal_ := s.optimal_
                regulator := reg }

/-- Well-formedness of a script suffix when `c` estimators (equivalently,
`c` correctness rows) already exist: every `calculate_estimator_weights[_]`
reply carries exactly one weight per ensemble member (the code declares
`new_clf_weights = [model.addVar(...) for i in range(len(self.estimators_))]`,
lines 341/383, after the append), and an accepted event adds one member. -/
def WFevs : ℕ → List Event → Prop
  | _, [] => True
  | c, e :: rest => e.primal_w.length = c + 1 ∧ WFevs (c + 1) rest

end Glib

/-! ## The reweighting programs of the cvxpy implementation

`compute_dual_ratsch` / `compute_dual_aglin` / `compute_dual_demiriz` /
`compute_dual_mdboost` (lines 430-493) hand a convex program to cvxpy and
return its optimum.  An exact optimum is in particular a feasible point, so
the constraint lists written by the code determine which sign/normalization
properties the returned sample-weight vector is guaranteed to satisfy.  The
constraint sets are embedded verbatim below. -/

namespace Dual

/-- Constraints of `compute_dual_ratsch` (lines 434-438):
`predictions[:, i] @ u_ <= r_` for every column, `-u_ <= 0` elementwise,
`u_ <= regulator` elementwise (only added when `regulator > 0`), and
`cvxpy.sum(u_) == 1`. -/
structure RatschFeasible (cols : List (List ℚ)) (regulator r : ℚ) (u : List ℚ) : Prop where
  margin : ∀ c ∈ cols, dotQ c u ≤ r
  nonneg : ∀ x ∈ u, -x ≤ 0
  capped : 0 < regulator → ∀ x ∈ u, x ≤ regulator
  normalized : u.sum = 1

/-- Constraints of `compute_dual_demiriz` (lines 469-471):
`predictions[:, i] @ u_ <= 1` for every column, `-u_ <= 0` and
`u_ <= regulator` elementwise.  No sum constraint. -/
structure DemirizFeasible (cols : List (List ℚ)) (regulator : ℚ) (u : List ℚ) : Prop where
  margin : ∀ c ∈ cols, dotQ c u ≤ 1
  nonneg : ∀ x ∈ u, -x ≤ 0
  capped : ∀ x ∈ u, x ≤ regulator

/-- Constraints of `compute_dual_aglin` (lines 453-456):
`-(predictions[:, t] @ u_) <= r_` for every column, `u_ + v_ == -1`
elementwise, `cvxpy.sum(v_) == regulator`, `-v_ <= 0`.  The function returns
`v_.value` as the sample weights. -/
structure AglinFeasible (cols : List (List ℚ)) (regulator r : ℚ) (u v : List ℚ) : Prop where
  margin : ∀ c ∈ cols, -(dotQ c u) ≤ r
  link : List.Forall₂ (fun a b => a + b = -1) u v
  total : v.sum = regulator
  nonneg : ∀ x ∈ v, -x ≤ 0

/-! ### A concrete `compute_dual_mdboost` instance

`n_instances = 2`, `gamma = None`, `regulator = 1/2`, one accepted learner
whose correctness column is `(1, -1)`.  Lines 270-273 build
`A = [[-1/(n-1)]]` off-diagonal, `1` on the diagonal, plus `0.0001 * I`,
i.e. `A = [[10001/10000, -1], [-1, 10001/10000]]`; line 294 takes
`A_inv = np.linalg.pinv(A)`.  `A` is invertible, so exactly its inverse
`M = (10^8/20001) * [[10001/10^4, 1], [1, 10001/10^4]]` is the
pseudoinverse; `M` is positive definite, so the `nearestPD` fallback
(lines 296-297) does not fire. -/

/-- Diagonal entry of `A` for `n_instances = 2` (lines 270-273). -/
def mdA11 : ℚ := 10001 / 10000

/-- Off-diagonal entry of `A` for `n_instances = 2`. -/
def mdA12 : ℚ := -1

/-- Diagonal entry of `A_inv = pinv(A)` (line 294). -/
def mdM11 : ℚ := 100010000 / 20001

/-- Off-diagonal entry of `A_inv`. -/
def mdM12 : ℚ := 100000000 / 20001


/-- `cvxpy.quad_form(x, A_inv)` = `xᵀ A_inv x` on the 2-example instance. -/
def mdQuad (x : ℚ × ℚ) : ℚ := mdM11 * (x.1 ^ 2 + x.2 ^ 2) + 2 * mdM12 * (x.1 * x.2)

/-- Objective of `compute_dual_mdboost` (line 484),
`r_ + 1/(2*regulator) * quad_form(u_ - 1, A_inv)`, with `regulator = 1/2`
(admissible: `1/2 > 1/n_instances` is not required by the code, which only
divides by it). -/
def mdObj (r : ℚ) (u : ℚ × ℚ) : ℚ := r + mdQuad (u.1 - 1, u.2 - 1)

/-- Feasible set of `compute_dual_mdboost` (line 485) for the single
prediction column `(1, -1)`: the only constraints are
`predictions[:, i] @ u_ <= r_` — the program has NO sign or sum constraint
on `u_`. -/
def MdFeasible (r : ℚ) (u : ℚ × ℚ) : Prop := u.1 - u.2 ≤ r

/-- The unique optimum of that program: `u* = 1 - (1/2)·A·p` with
`p = (1, -1)`. -/
def mdUStar : ℚ × ℚ := (-1 / 20000, 40001 / 20000)

/-- The optimal threshold `r* = p @ u*`. -/
def mdRStar : ℚ := -20001 / 10000

end Dual

/-! ## Pruning-helper lemmas -/

theorem zeroIndFrom_spec (ws : List ℚ) :
    ∀ n : ℕ, ((ws.enumFrom n).filter (fun p => p.2 = 0)).map Prod.fst = zeroIndFrom n ws := by
  induction ws with
  | nil => intro n; simp [zeroIndFrom]
  | cons w ws ih =>
    intro n
    by_cases hw : w = 0 <;>
      simp [List.enumFrom, zeroIndFrom, List.filter_cons, hw, ih (n + 1)]

theorem zeroInd_eq (ws : List ℚ) : zeroInd ws = zeroIndFrom 0 ws := by
  simpa [zeroInd, List.enum] using zeroIndFrom_spec ws 0

theorem removeIdxFrom_spec (xs : List α) (idx : List ℕ) :
    ∀ n : ℕ, ((xs.enumFrom n).filter (fun p => p.1 ∉ idx)).map Prod.snd
      = removeIdxFrom idx n xs := by
  induction xs with
  | nil => intro n; simp [removeIdxFrom]
  | cons x xs ih =>
    intro n
    have ih' := ih (n + 1)
    simp only [decide_not] at ih'
    by_cases hn : n ∈ idx <;>
      simp [List.enumFrom, removeIdxFrom, List.filter_cons, hn, ih']

theorem removeIdx_eq (xs : List α) (idx : List ℕ) :
    removeIdx xs idx = removeIdxFrom idx 0 xs := by
  simpa [removeIdx, List.enum] using removeIdxFrom_spec xs idx 0

theorem zeroIndFrom_ge (ws : List ℚ) :
    ∀ n m : ℕ, m ∈ zeroIndFrom n ws → n ≤ m := by
  induction ws with
  | nil => intro n m h; simp [zeroIndFrom] at h
  | cons w ws ih =>
    intro n m h
    simp only [zeroIndFrom, List.mem_append] at h
    rcases h with h | h
    · by_cases hw : w = 0 <;> simp [hw] at h
      omega
    · exact Nat.le_of_succ_le (ih (n + 1) m h)

/-- `removeIdxFrom` only consults membership of indices `≥ n`. -/
theorem removeIdxFrom_congr (xs : List α) :
    ∀ (idx₁ idx₂ : List ℕ) (n : ℕ),
      (∀ k, n ≤ k → (k ∈ idx₁ ↔ k ∈ idx₂)) →
      removeIdxFrom idx₁ n xs = removeIdxFrom idx₂ n xs := by
  induction xs with
  | nil => intro _ _ _ _; simp [removeIdxFrom]
  | cons x xs ih =>
    intro idx₁ idx₂ n hagree
    have hn : (n ∈ idx₁) = (n ∈ idx₂) := propext (hagree n le_rfl)
    simp only [removeIdxFrom, hn]
    rw [ih idx₁ idx₂ (n + 1) (fun k hk => hagree k (Nat.le_of_succ_le hk))]

theorem mem_zeroIndFrom_cons {w : ℚ} {ws : List ℚ} {n k : ℕ} :
    k ∈ zeroIndFrom n (w :: ws) ↔ (w = 0 ∧ k = n) ∨ k ∈ zeroIndFrom (n + 1) ws := by
  by_cases hw : w = 0 <;> simp [zeroIndFrom, hw]

theorem not_mem_zeroIndFrom_lt {ws : List ℚ} {n k : ℕ} (h : k < n) :
    k ∉ zeroIndFrom n ws :=
  fun hc => absurd (zeroIndFrom_ge ws n k hc) (by omega)

/-- Removing the zero-weight indices keeps exactly the entries whose companion
weight is nonzero. -/
theorem removeIdxFrom_zeroIndFrom (xs : List α) :
    ∀ (ws : List ℚ) (n : ℕ), xs.length = ws.length →
      removeIdxFrom (zeroIndFrom n ws) n xs = keepNonzero xs ws := by
  induction xs with
  | nil =>
    intro ws n h
    simp [removeIdxFrom, keepNonzero]
  | cons x xs ih =>
    intro ws n h
    cases ws with
    | nil => simp at h
    | cons w ws =>
      have hlen : xs.length = ws.length := by simpa using h
      have htail : removeIdxFrom (zeroIndFrom n (w :: ws)) (n + 1) xs
          = removeIdxFrom (zeroIndFrom (n + 1) ws) (n + 1) xs := by
        refine removeIdxFrom_congr xs _ _ (n + 1) (fun k hk => ?_)
        rw [mem_zeroIndFrom_cons]
        constructor
        · rintro (⟨_, hkn⟩ | hmem)
          · omega
          · exact hmem
        · intro hmem; exact Or.inr hmem
      have hhead : (n ∈ zeroIndFrom n (w :: ws)) ↔ w = 0 := by
        rw [mem_zeroIndFrom_cons]
        constructor
        · rintro (⟨hw, _⟩ | hmem)
          · exact hw
          · exact absurd hmem (not_mem_zeroIndFrom_lt (Nat.lt_succ_self n))
        · intro hw; exact Or.inl ⟨hw, rfl⟩
      have hunfold : removeIdxFrom (zeroIndFrom n (w :: ws)) n (x :: xs)
          = (if n ∈ zeroIndFrom n (w :: ws) then [] else [x])
            ++ removeIdxFrom (zeroIndFrom n (w :: ws)) (n + 1) xs := rfl
      rw [hunfold, htail, ih ws (n + 1) hlen]
      by_cases hw : w = 0
      · rw [if_pos (hhead.mpr hw)]
        simp [keepNonzero, List.zip_cons_cons, List.filter_cons, hw]
      · rw [if_neg (fun hc => hw (hhead.mp hc))]
        simp [keepNonzero, List.zip_cons_cons, List.filter_cons, hw]

theorem removeIdx_zeroInd (xs : List α) (ws : List ℚ) (h : xs.length = ws.length) :
    removeIdx xs (zeroInd ws) = keepNonzero xs ws := by
  rw [removeIdx_eq, zeroInd_eq, removeIdxFrom_zeroIndFrom xs ws 0 h]

/-- Removing a weight list's own zero indices is filtering out the zeros. -/
theorem keepNonzero_self (ws : List ℚ) :
    keepNonzero ws ws = ws.filter (fun w => w ≠ 0) := by
  induction ws with
  | nil => simp [keepNonzero]
  | cons w ws ih =>
    by_cases hw : w = 0 <;>
      simp [keepNonzero, List.filter_cons, hw] at ih ⊢ <;>
      simpa [keepNonzero] using ih

theorem keepNonzero_length (xs : List α) :
    ∀ ws : List ℚ, xs.length = ws.length →
      (keepNonzero xs ws).length = (ws.filter (fun w => w ≠ 0)).length := by
  induction xs with
  | nil => intro ws h; cases ws <;> simp_all [keepNonzero]
  | cons x xs ih =>
    intro ws h
    cases ws with
    | nil => simp at h
    | cons w ws =>
      have hlen : xs.length = ws.length := by simpa using h
      by_cases hw : w = 0 <;>
        simp [keepNonzero, List.filter_cons, hw] at ih ⊢ <;>
        simpa [keepNonzero] using ih ws hlen

theorem mem_filter_nonzero {w : ℚ} {ws : List ℚ}
    (h : w ∈ ws.filter (fun v => v ≠ 0)) : w ≠ 0 := by
  simpa using (List.mem_filter.mp h).2

theorem removeIdxFrom_nil_idx (xs : List α) : ∀ n, removeIdxFrom [] n xs = xs := by
  induction xs with
  | nil => intro n; simp [removeIdxFrom]
  | cons x xs ih => intro n; simp [removeIdxFrom, ih]

theorem removeIdx_nil_idx (xs : List α) : removeIdx xs [] = xs := by
  rw [removeIdx_eq, removeIdxFrom_nil_idx]

/-- `M` really is the (pseudo)inverse of `A`: the two distinct entries of
`A·M` are `1` and `0`. -/
theorem mdM_inverse :
    Dual.mdA11 * Dual.mdM11 + Dual.mdA12 * Dual.mdM12 = 1 ∧ Dual.mdA11 * Dual.mdM12 + Dual.mdA12 * Dual.mdM11 = 0 := by
  constructor <;> norm_num [Dual.mdA11, Dual.mdA12, Dual.mdM11, Dual.mdM12]

/-! ## Claims -/

/-- C1 counterexample: the cvxpy `fit` called with the single-class label
vector `y = [1, 1]` does not raise an input-validation error: it proceeds to
the weak-learner oracle (consuming the scripted oracle outcome) and returns
a fitted one-tree ensemble.  Its only validation (lines 257-258) is
`y is None`. -/
theorem pydl85_fit_single_class_runs_oracle :
    Pydl85.fit ⟨1, 0, 1 / 100⟩ [] [] true 2 (some [1, 1])
        [⟨0, 3, some [1, 1], ⟨0, [1, 0], [1]⟩⟩]
      = Pydl85.Outcome.ok ⟨[3], [1], [[1, 1]], 2, 1, 1, true⟩ := by
  norm_num [Pydl85.fit, Pydl85.loop, Pydl85.initState, Pydl85.loopCondB, Pydl85.convStopB,
    Pydl85.accept, Pydl85.nCorrectOf, Pydl85.rowMargin, dotQ,
    zeroInd_eq, removeIdx_eq, zeroIndFrom, removeIdxFrom, List.range_succ]

/-- C1 amended: only the gurobi implementation validates the class count —
with fewer than two distinct labels its `fit` raises the input-validation
error immediately, before consuming any oracle outcome (the result does not
depend on the script `inp`); the cvxpy implementation raises only on
`y = None`. -/
theorem fit_class_count_validation
    (gp : Glib.Params) (es0 : List ℕ) (ws0 : List ℚ) (opt0 : Bool) (ni0 n : ℕ)
    (ys : List ℤ) (inp : Glib.FitInput) (h : Glib.nDistinct ys < 2)
    (pp : Pydl85.Params) (es0p : List ℕ) (ws0p : List ℚ) (opt0p : Bool) (np : ℕ)
    (evs : List Pydl85.Event) :
    Glib.fit gp es0 ws0 opt0 ni0 n (some ys) inp = Glib.Outcome.valueError ∧
    Glib.fit gp es0 ws0 opt0 ni0 n none inp = Glib.Outcome.valueError ∧
    Pydl85.fit pp es0p ws0p opt0p np none evs = Pydl85.Outcome.valueError := by
  refine ⟨?_, rfl, rfl⟩
  simp [Glib.fit, h]

/-- Witness for `fit_class_count_validation` at `ys = [7, 7]`. -/
theorem fit_class_count_validation_witness :
    Glib.fit ⟨0, 0, 0, true, 1⟩ [] [] true 0 2 (some [7, 7])
        ⟨1 / 2, 5, some [1, 1], [1], []⟩
      = Glib.Outcome.valueError :=
  (fit_class_count_validation ⟨0, 0, 0, true, 1⟩ [] [] true 0 2 [7, 7]
      ⟨1 / 2, 5, some [1, 1], [1], []⟩ (by norm_num [Glib.nDistinct])
      ⟨1, 0, 1 / 100⟩ [] [] true 2 []).1

/-- C9: when `fit` of the gurobi implementation receives a non-positive
regulator it overwrites it with `1/(u * n)` for the fresh uniform draw `u`;
two distinct draws produce distinct regulators, hence distinct upper bounds
on every sample-weight variable of the reweighting program — the program
solved is not a function of `(X, y)` alone.  A positive regulator is left
untouched. -/
theorem glib_regulator_randomization
    (reg : ℚ) (n : ℕ) (u₁ u₂ : ℚ)
    (hreg : reg ≤ 0) (hn : 0 < n)
    (h1 : 0 < u₁) (h12 : u₁ < u₂) (_h2 : u₂ < 1) :
    Glib.updateRegulator reg n u₁ ≠ Glib.updateRegulator reg n u₂ ∧
    Glib.sampleWeightUb (Glib.updateRegulator reg n u₁)
      ≠ Glib.sampleWeightUb (Glib.updateRegulator reg n u₂) ∧
    (∀ r' : ℚ, 0 < r' → Glib.updateRegulator r' n u₁ = r') := by
  have hnq : (0 : ℚ) < (n : ℚ) := by exact_mod_cast hn
  have hu1n : 0 < u₁ * (n : ℚ) := mul_pos h1 hnq
  have hu2n : 0 < u₂ * (n : ℚ) := mul_pos (lt_trans h1 h12) hnq
  have hlt : u₁ * (n : ℚ) < u₂ * (n : ℚ) := by
    exact mul_lt_mul_of_pos_right h12 hnq
  have hne : 1 / (u₁ * (n : ℚ)) ≠ 1 / (u₂ * (n : ℚ)) := by
    have := one_div_lt_one_div_of_lt hu1n hlt
    exact ne_of_gt this
  have hpos1 : 0 < 1 / (u₁ * (n : ℚ)) := by positivity
  have hpos2 : 0 < 1 / (u₂ * (n : ℚ)) := by positivity
  have e1 : Glib.updateRegulator reg n u₁ = 1 / (u₁ * (n : ℚ)) := if_pos hreg
  have e2 : Glib.updateRegulator reg n u₂ = 1 / (u₂ * (n : ℚ)) := if_pos hreg
  have hub : ∀ r : ℚ, 0 < r → Glib.sampleWeightUb r = r := fun r hr => if_pos hr
  refine ⟨?_, ?_, ?_⟩
  · rw [e1, e2]; exact hne
  · rw [e1, e2, hub _ hpos1, hub _ hpos2]; exact hne
  · intro r' hr'
    simp [Glib.updateRegulator, not_le.mpr hr']

/-- Witness for `glib_regulator_randomization` at
`reg = -1, n = 5, u₁ = 1/4, u₂ = 1/2`. -/
theorem glib_regulator_randomization_witness :
    Glib.updateRegulator (-1) 5 (1 / 4) ≠ Glib.updateRegulator (-1) 5 (1 / 2) :=
  (glib_regulator_randomization (-1) 5 (1 / 4) (1 / 2)
      (by norm_num) (by norm_num) (by norm_num) (by norm_num) (by norm_num)).1

/-- C2 counterexample: in the gurobi implementation, an Oracle that always
fails makes the very first `clf.predict(X)` (line 190, OUTSIDE any
try/except) raise, and `fit` propagates that failure instead of returning an
ensemble of one estimator. -/
theorem glib_fit_first_predict_failure_propagates :
    Glib.fit ⟨0, 0, 0, true, 1⟩ [] [] true 0 2 (some [0, 1])
        ⟨1 / 2, 5, none, [], []⟩
      = Glib.Outcome.oracleErrorPropagated := by
  norm_num [Glib.fit, Glib.nDistinct]

/-- C2 amended: in the gurobi implementation the unconditionally attempted
first fit survives ORACLE failures only from the second prediction attempt
on: if the first `predict` succeeds and the next iteration's `predict`
raises a recognized failure, `fit` returns normally with exactly the one
first-fit estimator (whose solved weight is nonzero) and `optimal_ = False`
— while a failure at the FIRST prediction propagates (counterexample).  In
the cvxpy implementation every predict is guarded, but a failure on the very
first iteration leaves `predictions = None` and the pruning call
`np.delete(predictions, ..., axis=1)` (line 402) crashes with a numpy axis
error instead of returning an ensemble of 1. -/
theorem glib_fit_survives_later_oracle_failures
    (p : Glib.Params) (ni0 n : ℕ) (ys : List ℤ) (inp : Glib.FitInput)
    (pred0 : List ℚ) (w1 : ℚ) (e : Glib.Event) (rest : List Glib.Event)
    (hy : 2 ≤ Glib.nDistinct ys)
    (hfirst : inp.firstOracle = some pred0) (hw : inp.first_w = [w1]) (hw1 : w1 ≠ 0)
    (hevs : inp.events = e :: rest) (hfail : e.oracle = none) :
    Glib.fit p [] [] true ni0 n (some ys) inp
      = Glib.Outcome.ok
          { estimators_ := [inp.firstClf]
            estimator_weights_ := [w1]
            preds := [pred0]
            nCorrect := Glib.nCorrectRows [pred0] [w1] ys.length
            n_estimators_ := 1
            n_iterations_ := ni0 + 1
            optimal_ := false
            regulator := Glib.updateRegulator p.regulator n inp.urand } ∧
    (∀ (pp : Pydl85.Params) (es0p : List ℕ) (ws0p : List ℚ) (opt0p : Bool)
       (np : ℕ) (ys' : List ℤ) (e' : Pydl85.Event) (rest' : List Pydl85.Event),
       e'.oracle = none →
       Pydl85.fit pp es0p ws0p opt0p np (some ys') (e' :: rest')
         = Pydl85.Outcome.axisError) := by
  constructor
  · have hnotlt : ¬ Glib.nDistinct ys < 2 := not_lt.mpr hy
    have hloop : ∀ (p' : Glib.Params) (s : Glib.LoopState),
        Glib.loop p' (e :: rest) s = some { s with optimal_ := false } := by
      intro p' s
      by_cases hstop : Glib.stopCondB p' s.estimator_weights_ s.n_iterations_ e.elapsed
      · simp [Glib.loop, hstop]
      · simp [Glib.loop, hstop, hfail]
    have hzi : zeroInd [w1] = [] := by
      simp [zeroInd_eq, zeroIndFrom, hw1]
    simp [Glib.fit, hnotlt, hfirst, hevs, hloop, hw, hzi, hw1, removeIdx_nil_idx]
  · intro pp es0p ws0p opt0p np ys' e' rest' hfail'
    have hcond : Pydl85.loopCondB pp.max_iterations 1 = true := by
      simp only [Pydl85.loopCondB, Bool.or_eq_true, Bool.and_eq_true, decide_eq_true_eq]
      omega
    have hloop' : Pydl85.loop pp (e' :: rest') (Pydl85.initState es0p ws0p opt0p np)
        = some (Pydl85.initState es0p ws0p opt0p np) := by
      simp [Pydl85.loop, Pydl85.initState, hcond, hfail']
    simp only [Pydl85.fit]
    rw [hloop']
    rfl

/-- Witness for `glib_fit_survives_later_oracle_failures`: first predict
succeeds, the single loop iteration's predict fails; `fit` returns the
one-estimator ensemble `[5]` with `optimal_ = False`. -/
theorem glib_fit_survives_later_oracle_failures_witness :
    Glib.fit ⟨0, 0, 0, true, 1⟩ [] [] true 0 2 (some [0, 1])
        ⟨1 / 2, 5, some [1, 1], [1], [⟨0, [], 0, 6, none, []⟩]⟩
      = Glib.Outcome.ok
          { estimators_ := [5]
            estimator_weights_ := [1]
            preds := [[1, 1]]
            nCorrect := Glib.nCorrectRows [[1, 1]] [1] 2
            n_estimators_ := 1
            n_iterations_ := 1
            optimal_ := false
            regulator := Glib.updateRegulator 1 2 (1 / 2) } :=
  (glib_fit_survives_later_oracle_failures ⟨0, 0, 0, true, 1⟩ 0 2 [0, 1]
    ⟨1 / 2, 5, some [1, 1], [1], [⟨0, [], 0, 6, none, []⟩]⟩ [1, 1] 1
    ⟨0, [], 0, 6, none, []⟩ []
    (by norm_num [Glib.nDistinct]) rfl rfl (by norm_num) rfl rfl).1

/-- C3 counterexample: the gurobi `fit` has no empty-ensemble check at
finalization (lines 272-296 end in `return self`): a run whose only
estimator weight is exactly zero returns normally with an EMPTY ensemble,
rather than raising a not-fitted error. -/
theorem glib_fit_returns_empty_ensemble :
    Glib.fit ⟨0, 1, 0, true, 1⟩ [] [] true 0 2 (some [0, 1])
        ⟨1 / 2, 5, some [1, -1], [0], [⟨0, [], 0, 6, none, []⟩]⟩
      = Glib.Outcome.ok ⟨[], [], [], 0, 0, 1, false, 1⟩ := by
  norm_num [Glib.fit, Glib.nDistinct, Glib.updateRegulator, Glib.loop, Glib.stopCondB,
    Glib.countPos, Glib.nCorrectRows, zeroInd_eq, removeIdx_eq, zeroIndFrom, removeIdxFrom]

/-- C3 amended: only the cvxpy implementation raises a not-fitted error when
every ensemble member was pruned to zero weight; the gurobi implementation
returns normally with the empty ensemble. -/
theorem pydl85_fit_empty_survivors_not_fitted
    (p : Pydl85.Params) (es0 : List ℕ) (ws0 : List ℚ) (opt0 : Bool) (n : ℕ)
    (ys : List ℤ) (evs : List Pydl85.Event) (s : Pydl85.LoopState)
    (cols : List (List ℚ))
    (hloop : Pydl85.loop p evs (Pydl85.initState es0 ws0 opt0 n) = some s)
    (hcols : s.predictions = some cols)
    (hempty : removeIdx s.estimators_ (zeroInd s.estimator_weights_) = []) :
    Pydl85.fit p es0 ws0 opt0 n (some ys) evs = Pydl85.Outcome.notFittedError := by
  simp [Pydl85.fit, hloop, hcols, hempty]

/-- Witness for `pydl85_fit_empty_survivors_not_fitted`: a one-iteration run
whose single dual weight is `0`. -/
theorem pydl85_fit_empty_survivors_not_fitted_witness :
    Pydl85.fit ⟨1, 0, 1 / 100⟩ [] [] true 2 (some [0, 1])
        [⟨0, 3, some [1, 1], ⟨0, [1, 0], [0]⟩⟩]
      = Pydl85.Outcome.notFittedError :=
  pydl85_fit_empty_survivors_not_fitted ⟨1, 0, 1 / 100⟩ [] [] true 2 [0, 1]
    [⟨0, 3, some [1, 1], ⟨0, [1, 0], [0]⟩⟩]
    ⟨[3], [0], some [[1, 1]], [1, 0], some 0, 2, true⟩ [[1, 1]]
    (by norm_num [Pydl85.loop, Pydl85.initState, Pydl85.loopCondB, Pydl85.convStopB,
      Pydl85.accept])
    rfl
    (by norm_num [zeroInd_eq, removeIdx_eq, zeroIndFrom, removeIdxFrom])

/-- Helper: the cvxpy loop never removes an estimator mid-run — whatever
state it is started from, it only appends. -/
theorem pydl85_loop_only_appends (p : Pydl85.Params) :
    ∀ (evs : List Pydl85.Event) (s s' : Pydl85.LoopState),
      Pydl85.loop p evs s = some s' →
      ∃ tail, s'.estimators_ = s.estimators_ ++ tail := by
  intro evs
  induction evs with
  | nil =>
    intro s s' h
    simp only [Pydl85.loop] at h
    split at h
    · exact absurd h (by simp)
    · cases Option.some.inj h
      exact ⟨[], by simp⟩
  | cons e rest ih =>
    intro s s' h
    simp only [Pydl85.loop] at h
    split at h
    · split at h
      · cases Option.some.inj h
        exact ⟨[], by simp⟩
      · rename_i pred heq
        split at h
        · cases Option.some.inj h
          exact ⟨[], by simp⟩
        · obtain ⟨tail, htail⟩ := ih _ s' h
          exact ⟨e.clf :: tail, by
            simpa [Pydl85.accept, List.append_assoc] using htail⟩
    · cases Option.some.inj h
      exact ⟨[], by simp⟩

/-- Helper: nothing in the cvxpy loop ever sets `optimal_` to `False` (the
file contains no such assignment); the convergence break sets it to `True`
and every other path leaves it unchanged. -/
theorem pydl85_loop_preserves_optimal (p : Pydl85.Params) :
    ∀ (evs : List Pydl85.Event) (s s' : Pydl85.LoopState),
      Pydl85.loop p evs s = some s' → s.optimal_ = true → s'.optimal_ = true := by
  intro evs
  induction evs with
  | nil =>
    intro s s' h hopt
    simp only [Pydl85.loop] at h
    split at h
    · exact absurd h (by simp)
    · cases Option.some.inj h
      exact hopt
  | cons e rest ih =>
    intro s s' h hopt
    simp only [Pydl85.loop] at h
    split at h
    · split at h
      · cases Option.some.inj h
        exact hopt
      · rename_i pred heq
        split at h
        · cases Option.some.inj h
          rfl
        · exact ih _ s' h (by simpa [Pydl85.accept] using hopt)
    · cases Option.some.inj h
      exact hopt

/-- C5 counterexample: the cvxpy loop consults no budget other than
`max_iterations`.  With `time_limit = 1` configured and the wall clock at
1000 seconds at the top of both iterations, the loop still requests and
accepts two weak learners instead of stopping. -/
theorem pydl85_loop_ignores_time_budget :
    Pydl85.fit ⟨2, 1, 1 / 100⟩ [] [] true 2 (some [0, 1])
        [⟨1000, 3, some [1, 1], ⟨0, [1, 0], [1]⟩⟩,
         ⟨1000, 4, some [1, -1], ⟨0, [1, 0], [1, 1]⟩⟩]
      = Pydl85.Outcome.ok ⟨[3, 4], [1, 1], [[1, 1], [1, -1]], 2, 2, 2, true⟩ := by
  norm_num [Pydl85.fit, Pydl85.loop, Pydl85.initState, Pydl85.loopCondB, Pydl85.convStopB,
    Pydl85.accept, Pydl85.nCorrectOf, Pydl85.rowMargin, dotQ,
    zeroInd_eq, removeIdx_eq, zeroIndFrom, removeIdxFrom, List.range_succ]

/-- C5 amended: the gurobi loop checks all three budgets at the top of every
iteration, before the dual solve and the oracle request (its result there
does not depend on the event's solver or oracle fields), and a budget value
that is not positive disables exactly that limit; the cvxpy loop checks only
`max_iterations` (see the counterexample). -/
theorem glib_budget_check_top_of_loop
    (p : Glib.Params) (e : Glib.Event) (rest : List Glib.Event) (s : Glib.LoopState)
    (h : Glib.stopCondB p s.estimator_weights_ s.n_iterations_ e.elapsed = true) :
    Glib.loop p (e :: rest) s = some { s with optimal_ := false } ∧
    (∀ (ws : List ℚ) (ni : ℕ) (el : ℚ),
        Glib.stopCondB { p with max_estimators := 0 } ws ni el
          = ((decide (p.max_iterations ≤ (ni : ℤ)) && decide (0 < p.max_iterations))
              || (decide (p.time_limit ≤ el) && decide (0 < p.time_limit)))) ∧
    (∀ (ws : List ℚ) (ni : ℕ) (el : ℚ),
        Glib.stopCondB { p with max_iterations := 0 } ws ni el
          = ((decide (p.max_estimators ≤ (Glib.countPos ws : ℤ))
                && decide (0 < p.max_estimators))
              || (decide (p.time_limit ≤ el) && decide (0 < p.time_limit)))) ∧
    (∀ (ws : List ℚ) (ni : ℕ) (el : ℚ),
        Glib.stopCondB { p with time_limit := 0 } ws ni el
          = ((decide (p.max_estimators ≤ (Glib.countPos ws : ℤ))
                && decide (0 < p.max_estimators))
              || (decide (p.max_iterations ≤ (ni : ℤ)) && decide (0 < p.max_iterations)))) := by
  refine ⟨by simp [Glib.loop, h], ?_, ?_, ?_⟩ <;>
    intro ws ni el <;> simp [Glib.stopCondB]

/-- Witness for `glib_budget_check_top_of_loop`: `max_estimators = 1`
already reached (one positive weight), so the loop stops at its top with
`optimal_ = False`. -/
theorem glib_budget_check_top_of_loop_witness :
    Glib.loop ⟨1, 0, 0, true, 1⟩ [⟨0, [], 0, 6, some [1, 1], []⟩]
        ⟨[5], [1], [[1, 1]], 1, true⟩
      = some ⟨[5], [1], [[1, 1]], 1, false⟩ :=
  (glib_budget_check_top_of_loop ⟨1, 0, 0, true, 1⟩ ⟨0, [], 0, 6, some [1, 1], []⟩ []
      ⟨[5], [1], [[1, 1]], 1, true⟩
      (by norm_num [Glib.stopCondB, Glib.countPos])).1

/-- C6 counterexample: at the exact boundary — the new learner's weighted
score equals `r + opti_gap`, i.e. it improves on the threshold by exactly
(not more than) the gap — the cvxpy loop does NOT discard it and stop: the
strict test `pred @ sample_weights < r + opti_gap` (line 349) fails and the
learner is appended. -/
theorem pydl85_boundary_gap_accepts :
    Pydl85.loop ⟨2, 0, 1 / 2⟩
        [⟨0, 7, some [1], ⟨0, [1], [1, 1]⟩⟩]
        ⟨[6], [1], some [[1]], [1], some (1 / 2), 2, true⟩
      = some ⟨[6, 7], [1, 1], some [[1], [1]], [1], some 0, 3, true⟩ ∧
    dotQ [1] [1] = 1 / 2 + 1 / 2 := by
  constructor
  · norm_num [Pydl85.loop, Pydl85.loopCondB, Pydl85.convStopB, Pydl85.accept, dotQ]
  · norm_num [dotQ]

/-- C6 amended: on iterations after the first, the cvxpy loop discards the
new learner and stops as converged exactly when its score against the
current sample weights is STRICTLY below `r + opti_gap`; when the score is
`≥ r + opti_gap` (boundary included) the learner is appended and the loop
continues. -/
theorem pydl85_convergence_test_strict
    (p : Pydl85.Params) (e : Pydl85.Event) (rest : List Pydl85.Event)
    (s : Pydl85.LoopState) (pred : List ℚ) (rv : ℚ)
    (hcond : Pydl85.loopCondB p.max_iterations s.n_iterations_ = true)
    (horacle : e.oracle = some pred) (hr : s.r = some rv) (hn : 1 < s.n_iterations_) :
    (dotQ pred s.sample_weights < rv + p.opti_gap →
       Pydl85.loop p (e :: rest) s = some { s with optimal_ := true }) ∧
    (rv + p.opti_gap ≤ dotQ pred s.sample_weights →
       Pydl85.loop p (e :: rest) s = Pydl85.loop p rest (Pydl85.accept s e pred)) := by
  constructor
  · intro hlt
    have hstop : Pydl85.convStopB s.r s.n_iterations_
        (dotQ pred s.sample_weights) p.opti_gap = true := by
      simp [Pydl85.convStopB, hr, hn, hlt]
    simp [Pydl85.loop, hcond, horacle, hstop]
  · intro hge
    have hstop : Pydl85.convStopB s.r s.n_iterations_
        (dotQ pred s.sample_weights) p.opti_gap = false := by
      simp [Pydl85.convStopB, hr, not_lt.mpr hge]
    simp [Pydl85.loop, hcond, horacle, hstop]

/-- Witness for `pydl85_convergence_test_strict`: a strictly-below-threshold
learner is discarded and the loop stops with `optimal_ = True`. -/
theorem pydl85_convergence_test_strict_witness :
    Pydl85.loop ⟨2, 0, 1 / 2⟩
        [⟨0, 7, some [0], ⟨0, [1], [1, 1]⟩⟩]
        ⟨[6], [1], some [[1]], [1], some (1 / 2), 2, true⟩
      = some ⟨[6], [1], some [[1]], [1], some (1 / 2), 2, true⟩ :=
  (pydl85_convergence_test_strict ⟨2, 0, 1 / 2⟩ ⟨0, 7, some [0], ⟨0, [1], [1, 1]⟩⟩ []
      ⟨[6], [1], some [[1]], [1], some (1 / 2), 2, true⟩ [0] (1 / 2)
      (by norm_num [Pydl85.loopCondB]) rfl rfl (by norm_num)).1
    (by norm_num [dotQ])

/-- C8 counterexample: a cvxpy run cut short by an Oracle failure (the
second scripted predict raises a recognized failure) still returns with
`optimal_ = True`: the cvxpy `fit` never assigns `optimal_ = False`
anywhere. -/
theorem pydl85_oracle_failure_keeps_optimal_true :
    Pydl85.fit ⟨0, 0, 1 / 100⟩ [] [] true 2 (some [0, 1])
        [⟨0, 3, some [1, 1], ⟨0, [1, 0], [1]⟩⟩,
         ⟨0, 4, none, ⟨0, [], []⟩⟩]
      = Pydl85.Outcome.ok ⟨[3], [1], [[1, 1]], 2, 1, 1, true⟩ := by
  norm_num [Pydl85.fit, Pydl85.loop, Pydl85.initState, Pydl85.loopCondB, Pydl85.convStopB,
    Pydl85.accept, Pydl85.nCorrectOf, Pydl85.rowMargin, dotQ,
    zeroInd_eq, removeIdx_eq, zeroIndFrom, removeIdxFrom, List.range_succ]

/-- C8 amended: in the gurobi implementation the loop sets
`optimal_ = False` exactly on the budget break and on the recognized Oracle
failure break, and leaves it untouched on the convergence break (so it
remains `True` there); the cvxpy loop never sets `optimal_` to `False` — a
run cut short by a budget or an Oracle failure still reports
`optimal_ = True` (see the counterexample). -/
theorem optimal_flag_semantics
    (gp : Glib.Params) (e : Glib.Event) (rest : List Glib.Event) (s : Glib.LoopState)
    (pred : List ℚ) (pp : Pydl85.Params) :
    (Glib.stopCondB gp s.estimator_weights_ s.n_iterations_ e.elapsed = true ∨
        e.oracle = none →
      Glib.loop gp (e :: rest) s = some { s with optimal_ := false }) ∧
    (Glib.stopCondB gp s.estimator_weights_ s.n_iterations_ e.elapsed = false →
      e.oracle = some pred →
      Glib.convStopB gp.svm1 (dotQ e.dual_u pred) e.gamma = true →
      Glib.loop gp (e :: rest) s = some s) ∧
    (∀ (evs : List Pydl85.Event) (t t' : Pydl85.LoopState),
      Pydl85.loop pp evs t = some t' → t.optimal_ = true → t'.optimal_ = true) := by
  refine ⟨?_, ?_, pydl85_loop_preserves_optimal pp⟩
  · rintro (hstop | hfail)
    · simp [Glib.loop, hstop]
    · by_cases hstop : Glib.stopCondB gp s.estimator_weights_ s.n_iterations_ e.elapsed
      · simp [Glib.loop, hstop]
      · simp [Glib.loop, hstop, hfail]
  · intro hstop horacle hconv
    simp [Glib.loop, hstop, horacle, hconv]

/-- Witness for `optimal_flag_semantics`: an Oracle failure in the first
loop iteration makes the gurobi loop stop with `optimal_ = False`. -/
theorem optimal_flag_semantics_witness :
    Glib.loop ⟨0, 0, 0, true, 1⟩ [⟨0, [], 0, 6, none, []⟩]
        ⟨[5], [1], [[1, 1]], 1, true⟩
      = some ⟨[5], [1], [[1, 1]], 1, false⟩ :=
  (optimal_flag_semantics ⟨0, 0, 0, true, 1⟩ ⟨0, [], 0, 6, none, []⟩ []
      ⟨[5], [1], [[1, 1]], 1, true⟩ [] ⟨0, 0, 1 / 100⟩).1 (Or.inr rfl)

/-- C10: the cvxpy `fit` never resets `estimators_` (it is initialized only
in `__init__`, lines 249-254): starting from the survivors `es0` of a
previous run, the loop-exit state extends `es0`, and when the pruning
removes nothing the returned ensemble is exactly the previous survivors
followed by the new run's accepted learners — the two runs' estimators mix
in one ensemble. -/
theorem pydl85_refit_accumulates_estimators
    (p : Pydl85.Params) (es0 : List ℕ) (ws0 : List ℚ) (opt0 : Bool) (n : ℕ)
    (ys : List ℤ) (evs : List Pydl85.Event) (s : Pydl85.LoopState)
    (cols : List (List ℚ))
    (hloop : Pydl85.loop p evs (Pydl85.initState es0 ws0 opt0 n) = some s)
    (hcols : s.predictions = some cols)
    (hzi : zeroInd s.estimator_weights_ = [])
    (hne : s.estimators_ ≠ []) :
    (∃ tail, s.estimators_ = es0 ++ tail) ∧
    Pydl85.fit p es0 ws0 opt0 n (some ys) evs
      = Pydl85.Outcome.ok
          { estimators_ := s.estimators_
            estimator_weights_ := s.estimator_weights_
            predictions := cols
            nCorrect := Pydl85.nCorrectOf cols s.estimator_weights_ ys.length
            n_estimators_ := s.estimators_.length
            n_iterations_ := s.n_iterations_ - 1
            optimal_ := s.optimal_ } := by
  constructor
  · simpa [Pydl85.initState] using pydl85_loop_only_appends p evs _ s hloop
  · simp [Pydl85.fit, hloop, hcols, hzi, removeIdx_nil_idx, hne]

/-- Witness for `pydl85_refit_accumulates_estimators`: a second `fit` on a
booster whose first run left survivor `5` accepts learner `9` and returns
the mixed ensemble `[5, 9]`. -/
theorem pydl85_refit_accumulates_estimators_witness :
    Pydl85.fit ⟨1, 0, 1 / 100⟩ [5] [1] true 2 (some [0, 1])
        [⟨0, 9, some [1, 1], ⟨0, [1, 0], [1]⟩⟩]
      = Pydl85.Outcome.ok
          { estimators_ := [5, 9]
            estimator_weights_ := [1]
            predictions := [[1, 1]]
            nCorrect := Pydl85.nCorrectOf [[1, 1]] [1] 2
            n_estimators_ := 2
            n_iterations_ := 1
            optimal_ := true } :=
  (pydl85_refit_accumulates_estimators ⟨1, 0, 1 / 100⟩ [5] [1] true 2 [0, 1]
      [⟨0, 9, some [1, 1], ⟨0, [1, 0], [1]⟩⟩]
      ⟨[5, 9], [1], some [[1, 1]], [1, 0], some 0, 2, true⟩ [[1, 1]]
      (by norm_num [Pydl85.loop, Pydl85.initState, Pydl85.loopCondB, Pydl85.convStopB,
        Pydl85.accept])
      rfl
      (by norm_num [zeroInd_eq, zeroIndFrom])
      (by simp)).2

/-- Helper: accepting a learner adds exactly one prediction column. -/
theorem pydl85_colCount_accept (s : Pydl85.LoopState) (e : Pydl85.Event) (pred : List ℚ) :
    Pydl85.colCount (Pydl85.accept s e pred) = Pydl85.colCount s + 1 := by
  cases hp : s.predictions <;> simp [Pydl85.accept, Pydl85.colCount, hp]

/-- Helper: under a well-formed script, the loop maintains
`len(estimators_) = len(estimator_weights_) = number of prediction columns`. -/
theorem pydl85_loop_shape (p : Pydl85.Params) :
    ∀ (evs : List Pydl85.Event) (s s' : Pydl85.LoopState),
      Pydl85.WFevs (Pydl85.colCount s) evs →
      s.estimators_.length = Pydl85.colCount s →
      s.estimator_weights_.length = Pydl85.colCount s →
      Pydl85.loop p evs s = some s' →
      s'.estimators_.length = Pydl85.colCount s' ∧
      s'.estimator_weights_.length = Pydl85.colCount s' := by
  intro evs
  induction evs with
  | nil =>
    intro s s' _ h1 h2 h
    simp only [Pydl85.loop] at h
    split at h
    · exact absurd h (by simp)
    · cases Option.some.inj h
      exact ⟨h1, h2⟩
  | cons e rest ih =>
    intro s s' hwf h1 h2 h
    simp only [Pydl85.loop] at h
    split at h
    · split at h
      · cases Option.some.inj h
        exact ⟨h1, h2⟩
      · rename_i pred heq
        split at h
        · cases Option.some.inj h
          exact ⟨by simpa [Pydl85.colCount] using h1, by simpa [Pydl85.colCount] using h2⟩
        · refine ih (Pydl85.accept s e pred) s' ?_ ?_ ?_ h
          · rw [pydl85_colCount_accept]
            exact hwf.2
          · rw [pydl85_colCount_accept]
            simp [Pydl85.accept, h1]
          · rw [pydl85_colCount_accept]
            simpa [Pydl85.accept] using hwf.1
    · cases Option.some.inj h
      exact ⟨h1, h2⟩

/-- Helper: under a well-formed script, the gurobi loop maintains
`len(estimator_weights_) = len(estimators_) = len(preds)`. -/
theorem glib_loop_shape (p : Glib.Params) :
    ∀ (evs : List Glib.Event) (s s' : Glib.LoopState),
      Glib.WFevs s.estimators_.length evs →
      s.estimator_weights_.length = s.estimators_.length →
      s.preds.length = s.estimators_.length →
      Glib.loop p evs s = some s' →
      s'.estimator_weights_.length = s'.estimators_.length ∧
      s'.preds.length = s'.estimators_.length := by
  intro evs
  induction evs with
  | nil =>
    intro s s' _ _ _ h
    exact absurd h (by simp [Glib.loop])
  | cons e rest ih =>
    intro s s' hwf h1 h2 h
    simp only [Glib.loop] at h
    split at h
    · cases Option.some.inj h
      exact ⟨h1, h2⟩
    · split at h
      · cases Option.some.inj h
        exact ⟨h1, h2⟩
      · rename_i pred heq
        split at h
        · cases Option.some.inj h
          exact ⟨h1, h2⟩
        · refine ih _ s' ?_ ?_ ?_ h
          · simpa using hwf.2
          · simpa using hwf.1
          · simp [h2]

/-- C4 amended: for every FRESH fit-run of either implementation
(`estimators_` and `estimator_weights_` empty on entry, as `__init__` leaves
them) with a well-formed script, after the loop exits (any stop reason)
exactly the members whose finalized weight equals zero are removed, together
with their prediction-matrix columns/rows (`keepNonzero` keeps the others in
order), and afterwards `n_estimators_ = len(estimators_) =
len(estimator_weights_) =` number of prediction columns, with no surviving
weight equal to zero.  On a refit of a used booster the equalities fail —
see the counterexample. -/
theorem prune_invariant_fresh_runs
    (p : Pydl85.Params) (opt0 : Bool) (n : ℕ) (ys : List ℤ)
    (evs : List Pydl85.Event) (s : Pydl85.LoopState) (cols : List (List ℚ))
    (f : Pydl85.FitResult)
    (hwf : Pydl85.WFevs 0 evs)
    (hloop : Pydl85.loop p evs (Pydl85.initState [] [] opt0 n) = some s)
    (hcols : s.predictions = some cols)
    (hfit : Pydl85.fit p [] [] opt0 n (some ys) evs = Pydl85.Outcome.ok f)
    (gp : Glib.Params) (ni0 ng : ℕ) (ys₂ : List ℤ) (inp : Glib.FitInput)
    (pred0 : List ℚ) (t : Glib.LoopState) (g : Glib.FitResult)
    (hy₂ : 2 ≤ Glib.nDistinct ys₂)
    (hfirst : inp.firstOracle = some pred0)
    (hw1 : inp.first_w.length = 1)
    (hgwf : Glib.WFevs 1 inp.events)
    (hgloop : Glib.loop
        { gp with regulator := Glib.updateRegulator gp.regulator ng inp.urand }
        inp.events
        { estimators_ := [inp.firstClf]
          estimator_weights_ := inp.first_w
          preds := [pred0]
          n_iterations_ := ni0 + 1
          optimal_ := true } = some t)
    (hgfit : Glib.fit gp [] [] true ni0 ng (some ys₂) inp = Glib.Outcome.ok g) :
    (f.estimators_ = keepNonzero s.estimators_ s.estimator_weights_ ∧
     f.predictions = keepNonzero cols s.estimator_weights_ ∧
     f.estimator_weights_ = s.estimator_weights_.filter (fun w => w ≠ 0) ∧
     f.n_estimators_ = f.estimators_.length ∧
     f.estimators_.length = f.estimator_weights_.length ∧
     f.estimator_weights_.length = f.predictions.length ∧
     ∀ w ∈ f.estimator_weights_, w ≠ 0) ∧
    (g.estimators_ = keepNonzero t.estimators_ t.estimator_weights_ ∧
     g.preds = keepNonzero t.preds t.estimator_weights_ ∧
     g.estimator_weights_ = t.estimator_weights_.filter (fun w => w ≠ 0) ∧
     g.n_estimators_ = g.estimators_.length ∧
     g.estimators_.length = g.estimator_weights_.length ∧
     g.estimator_weights_.length = g.preds.length ∧
     ∀ w ∈ g.estimator_weights_, w ≠ 0) := by
  constructor
  · have hshape := pydl85_loop_shape p evs (Pydl85.initState [] [] opt0 n) s
      (by simpa [Pydl85.initState, Pydl85.colCount] using hwf)
      (by simp [Pydl85.initState, Pydl85.colCount])
      (by simp [Pydl85.initState, Pydl85.colCount])
      hloop
    have hcollen : Pydl85.colCount s = cols.length := by simp [Pydl85.colCount, hcols]
    have hes : s.estimators_.length = s.estimator_weights_.length := by
      rw [hshape.1, hshape.2]
    have hcl : cols.length = s.estimator_weights_.length := by
      rw [← hcollen, hshape.2]
    simp only [Pydl85.fit, hloop, hcols] at hfit
    split at hfit
    · exact absurd hfit (by simp)
    · rename_i hlen
      cases Pydl85.Outcome.ok.inj hfit
      have hws : removeIdx s.estimator_weights_ (zeroInd s.estimator_weights_)
          = s.estimator_weights_.filter (fun w => w ≠ 0) := by
        rw [removeIdx_zeroInd _ _ rfl, keepNonzero_self]
      refine ⟨?_, ?_, ?_, rfl, ?_, ?_, ?_⟩
      · exact removeIdx_zeroInd _ _ hes
      · exact removeIdx_zeroInd _ _ hcl
      · exact hws
      · rw [removeIdx_zeroInd _ _ hes, removeIdx_zeroInd _ _ rfl, keepNonzero_self,
          keepNonzero_length _ _ hes]
      · rw [removeIdx_zeroInd _ _ rfl, removeIdx_zeroInd _ _ hcl, keepNonzero_self,
          keepNonzero_length _ _ hcl]
      · intro w hw
        rw [hws] at hw
        exact mem_filter_nonzero hw
  · have hshape := glib_loop_shape
      { gp with regulator := Glib.updateRegulator gp.regulator ng inp.urand }
      inp.events
      { estimators_ := [inp.firstClf]
        estimator_weights_ := inp.first_w
        preds := [pred0]
        n_iterations_ := ni0 + 1
        optimal_ := true } t
      (by simpa using hgwf) (by simpa using hw1) (by simp) hgloop
    have hes : t.estimators_.length = t.estimator_weights_.length := hshape.1.symm
    have hpreds : t.preds.length = t.estimator_weights_.length :=
      hshape.2.trans hshape.1.symm
    have hnotlt : ¬ Glib.nDistinct ys₂ < 2 := not_lt.mpr hy₂
    have hfiteq : Glib.fit gp [] [] true ni0 ng (some ys₂) inp
        = Glib.Outcome.ok
            { estimators_ := removeIdx t.estimators_ (zeroInd t.estimator_weights_)
              estimator_weights_ := t.estimator_weights_.filter (fun w => w ≠ 0)
              preds := removeIdx t.preds (zeroInd t.estimator_weights_)
              nCorrect := Glib.nCorrectRows
                (removeIdx t.preds (zeroInd t.estimator_weights_))
                (t.estimator_weights_.filter (fun w => w ≠ 0)) ys₂.length
              n_estimators_ :=
                (removeIdx t.estimators_ (zeroInd t.estimator_weights_)).length
              n_iterations_ := t.n_iterations_
              optimal_ := t.optimal_
              regulator := Glib.updateRegulator gp.regulator ng inp.urand } := by
      simp [Glib.fit, hnotlt, hfirst, hgloop]
    rw [hfiteq] at hgfit
    cases Glib.Outcome.ok.inj hgfit
    refine ⟨?_, ?_, rfl, rfl, ?_, ?_, ?_⟩
    · exact removeIdx_zeroInd _ _ hes
    · exact removeIdx_zeroInd _ _ hpreds
    · rw [removeIdx_zeroInd _ _ hes, keepNonzero_length _ _ hes]
    · rw [removeIdx_zeroInd _ _ hpreds, keepNonzero_length _ _ hpreds]
    · intro w hw
      exact mem_filter_nonzero hw

/-- Witness for `prune_invariant_fresh_runs`: concrete fresh runs of both
implementations, each with one weight solved to exactly `0`; the pruned
results keep exactly the nonzero-weight member. -/
theorem prune_invariant_fresh_runs_witness :
    (([3] : List ℕ) = keepNonzero [3, 4] [2, 0] ∧
     ([[1, 1]] : List (List ℚ)) = keepNonzero [[1, 1], [1, -1]] [2, 0] ∧
     ([2] : List ℚ) = List.filter (fun w => w ≠ 0) [2, 0] ∧
     (1 : ℕ) = ([3] : List ℕ).length ∧
     ([3] : List ℕ).length = ([2] : List ℚ).length ∧
     ([2] : List ℚ).length = ([[1, 1]] : List (List ℚ)).length ∧
     ∀ w ∈ ([2] : List ℚ), w ≠ 0) ∧
    (([5] : List ℕ) = keepNonzero [5, 6] [1, 0] ∧
     ([[1, -1]] : List (List ℚ)) = keepNonzero [[1, -1], [1, 1]] [1, 0] ∧
     ([1] : List ℚ) = List.filter (fun w => w ≠ 0) [1, 0] ∧
     (1 : ℕ) = ([5] : List ℕ).length ∧
     ([5] : List ℕ).length = ([1] : List ℚ).length ∧
     ([1] : List ℚ).length = ([[1, -1]] : List (List ℚ)).length ∧
     ∀ w ∈ ([1] : List ℚ), w ≠ 0) := by
  have h := prune_invariant_fresh_runs ⟨2, 0, 1 / 100⟩ true 2 [0, 1]
    [⟨0, 3, some [1, 1], ⟨0, [1, 0], [1]⟩⟩,
     ⟨0, 4, some [1, -1], ⟨0, [1, 0], [2, 0]⟩⟩]
    ⟨[3, 4], [2, 0], some [[1, 1], [1, -1]], [1, 0], some 0, 3, true⟩
    [[1, 1], [1, -1]]
    ⟨[3], [2], [[1, 1]], 2, 1, 2, true⟩
    (by norm_num [Pydl85.WFevs])
    (by norm_num [Pydl85.loop, Pydl85.initState, Pydl85.loopCondB, Pydl85.convStopB,
      Pydl85.accept, dotQ])
    rfl
    (by norm_num [Pydl85.fit, Pydl85.loop, Pydl85.initState, Pydl85.loopCondB,
      Pydl85.convStopB, Pydl85.accept, Pydl85.nCorrectOf, Pydl85.rowMargin, dotQ,
      zeroInd_eq, removeIdx_eq, zeroIndFrom, removeIdxFrom, List.range_succ])
    ⟨0, 0, 0, true, 1⟩ 0 2 [0, 1]
    ⟨1 / 2, 5, some [1, -1], [1],
     [⟨0, [1, 0], 0, 6, some [1, 1], [1, 0]⟩, ⟨0, [], 0, 7, none, [1, 1, 1]⟩]⟩
    [1, -1]
    ⟨[5, 6], [1, 0], [[1, -1], [1, 1]], 2, false⟩
    ⟨[5], [1], [[1, -1]], 1, 1, 2, false, 1⟩
    (by norm_num [Glib.nDistinct])
    rfl
    (by norm_num)
    (by norm_num [Glib.WFevs])
    (by norm_num [Glib.loop, Glib.stopCondB, Glib.countPos, Glib.convStopB, dotQ,
      Glib.updateRegulator])
    (by norm_num [Glib.fit, Glib.nDistinct, Glib.updateRegulator, Glib.loop,
      Glib.stopCondB, Glib.countPos, Glib.convStopB, Glib.nCorrectRows,
      Glib.rowMarginRows, dotQ, zeroInd_eq, removeIdx_eq, zeroIndFrom, removeIdxFrom,
      List.range_succ])
  exact h

/-- C4 counterexample: the claim quantifies over every fit-run, but on a
SECOND fit of the same cvxpy booster the estimators carried over from the
first run are pruned against the new run's (shorter) weight vector, and
after pruning `len(estimators_) = 2` while
`len(estimator_weights_) = number of prediction columns = 1`. -/
theorem pydl85_refit_breaks_prune_lengths :
    Pydl85.fit ⟨1, 0, 1 / 100⟩ [8] [1] true 2 (some [0, 1])
        [⟨0, 2, some [1, 1], ⟨0, [1, 0], [1]⟩⟩]
      = Pydl85.Outcome.ok ⟨[8, 2], [1], [[1, 1]], 2, 2, 1, true⟩ ∧
    ([8, 2] : List ℕ).length ≠ ([1] : List ℚ).length := by
  constructor
  · norm_num [Pydl85.fit, Pydl85.loop, Pydl85.initState, Pydl85.loopCondB, Pydl85.convStopB,
      Pydl85.accept, Pydl85.nCorrectOf, Pydl85.rowMargin, dotQ,
      zeroInd_eq, removeIdx_eq, zeroIndFrom, removeIdxFrom, List.range_succ]
  · simp

/-- Helper: the quadratic form `x ↦ xᵀ A_inv x` of the concrete MDBoost
instance is positive semidefinite. -/
theorem mdQuad_nonneg (d : ℚ × ℚ) : 0 ≤ Dual.mdQuad d := by
  obtain ⟨d1, d2⟩ := d
  simp only [Dual.mdQuad, Dual.mdM11, Dual.mdM12]
  nlinarith [sq_nonneg (d1 + d2), sq_nonneg d1, sq_nonneg d2]

/-- Helper: the objective of the concrete MDBoost dual decomposes as its
value at `(r*, u*)` plus the (nonnegative) constraint slack plus the
(nonnegative) quadratic form of the displacement — i.e. `(r*, u*)` satisfies
the exact first-order optimality conditions. -/
theorem mdObj_decomposition (r : ℚ) (u : ℚ × ℚ) :
    Dual.mdObj r u
      = Dual.mdObj Dual.mdRStar Dual.mdUStar + (r - (u.1 - u.2))
        + Dual.mdQuad (u.1 - Dual.mdUStar.1, u.2 - Dual.mdUStar.2) := by
  obtain ⟨u1, u2⟩ := u
  simp only [Dual.mdObj, Dual.mdQuad, Dual.mdRStar, Dual.mdUStar,
    Dual.mdM11, Dual.mdM12]
  ring

/-- C7 counterexample: the kernel-regularized QP variant
(`compute_dual_mdboost`, lines 481-493) puts NO sign constraint on the
sample-weight vector, and at the concrete instance
(`n_instances = 2`, `gamma = None`, `regulator = 1/2`, one learner with
correctness column `(1, -1)`) the program's unique exact optimum
`u* = (-1/20000, 40001/20000)` has a strictly negative first entry — the
finalized sample weights returned by an exact solve of this variant are not
entrywise nonnegative. -/
theorem mdboost_optimum_has_negative_entry :
    Dual.MdFeasible Dual.mdRStar Dual.mdUStar ∧
    Dual.mdUStar.1 < 0 ∧
    (∀ (r : ℚ) (u : ℚ × ℚ), Dual.MdFeasible r u →
      Dual.mdObj Dual.mdRStar Dual.mdUStar ≤ Dual.mdObj r u) ∧
    (∀ (r : ℚ) (u : ℚ × ℚ), Dual.MdFeasible r u →
      Dual.mdObj r u = Dual.mdObj Dual.mdRStar Dual.mdUStar → u = Dual.mdUStar) := by
  refine ⟨?_, ?_, ?_, ?_⟩
  · simp only [Dual.MdFeasible, Dual.mdRStar, Dual.mdUStar]
    norm_num
  · simp only [Dual.mdUStar]
    norm_num
  · intro r u hfeas
    have hq := mdQuad_nonneg (u.1 - Dual.mdUStar.1, u.2 - Dual.mdUStar.2)
    have hslack : 0 ≤ r - (u.1 - u.2) := by
      simp only [Dual.MdFeasible] at hfeas
      linarith
    rw [mdObj_decomposition r u]
    linarith
  · intro r u hfeas heq
    have hslack : 0 ≤ r - (u.1 - u.2) := by
      simp only [Dual.MdFeasible] at hfeas
      linarith
    have hq := mdQuad_nonneg (u.1 - Dual.mdUStar.1, u.2 - Dual.mdUStar.2)
    have hzero : Dual.mdQuad (u.1 - Dual.mdUStar.1, u.2 - Dual.mdUStar.2) = 0 := by
      have := mdObj_decomposition r u
      rw [heq] at this
      linarith
    obtain ⟨u1, u2⟩ := u
    simp only [Dual.mdQuad, Dual.mdM11, Dual.mdM12, Dual.mdUStar] at hzero
    have hsq : (u1 - Dual.mdUStar.1) ^ 2 + (u2 - Dual.mdUStar.2) ^ 2 ≤ 0 := by
      simp only [Dual.mdUStar]
      nlinarith [sq_nonneg ((u1 - Dual.mdUStar.1) + (u2 - Dual.mdUStar.2)),
        sq_nonneg (u1 + 1 / 20000 + (u2 - 40001 / 20000))]
    have h1 : u1 = Dual.mdUStar.1 := by
      simp only [Dual.mdUStar] at hsq ⊢
      nlinarith [sq_nonneg (u1 + 1 / 20000), sq_nonneg (u2 - 40001 / 20000)]
    have h2 : u2 = Dual.mdUStar.2 := by
      simp only [Dual.mdUStar] at hsq ⊢
      nlinarith [sq_nonneg (u1 + 1 / 20000), sq_nonneg (u2 - 40001 / 20000)]
    simp only [Dual.mdUStar] at h1 h2 ⊢
    exact Prod.ext h1 h2

/-- C7 amended: an exact optimum of the three LP variants is a feasible
point of the constraint set the code declares, hence: the Ratsch dual's
sample weights are nonnegative and sum exactly to 1; the Demiriz dual's are
nonnegative (no sum normalization); the Aglin dual's returned vector `v` is
nonnegative and sums to the regulator.  The MDBoost QP constrains no signs —
see the counterexample. -/
theorem lp_duals_sample_weight_ranges
    (cols : List (List ℚ)) (reg r : ℚ) (u : List ℚ)
    (hrat : Dual.RatschFeasible cols reg r u)
    (cols₂ : List (List ℚ)) (reg₂ : ℚ) (u₂ : List ℚ)
    (hdem : Dual.DemirizFeasible cols₂ reg₂ u₂)
    (cols₃ : List (List ℚ)) (reg₃ r₃ : ℚ) (u₃ v₃ : List ℚ)
    (hagl : Dual.AglinFeasible cols₃ reg₃ r₃ u₃ v₃) :
    ((∀ x ∈ u, 0 ≤ x) ∧ u.sum = 1) ∧
    (∀ x ∈ u₂, 0 ≤ x) ∧
    ((∀ x ∈ v₃, 0 ≤ x) ∧ v₃.sum = reg₃) := by
  refine ⟨⟨fun x hx => ?_, hrat.normalized⟩, fun x hx => ?_,
    ⟨fun x hx => ?_, hagl.total⟩⟩
  · linarith [hrat.nonneg x hx]
  · linarith [hdem.nonneg x hx]
  · linarith [hagl.nonneg x hx]

/-- Witness for `lp_duals_sample_weight_ranges` at concrete feasible points
of the three LP variants. -/
theorem lp_duals_sample_weight_ranges_witness :
    ((∀ x ∈ ([1] : List ℚ), 0 ≤ x) ∧ ([1] : List ℚ).sum = 1) ∧
    (∀ x ∈ ([0] : List ℚ), 0 ≤ x) ∧
    ((∀ x ∈ ([0] : List ℚ), 0 ≤ x) ∧ ([0] : List ℚ).sum = 0) :=
  lp_duals_sample_weight_ranges [] 1 0 [1]
    ⟨by simp, by norm_num, fun _ => by norm_num, by norm_num⟩
    [] 0 [0]
    ⟨by simp, by norm_num, by norm_num⟩
    [] 0 0 [-1] [0]
    ⟨by simp, by norm_num, by norm_num, by norm_num⟩

end DL85
